import Mathlib

/-!
Verification of the `preempt` scheduling engine.

This file is a shallow embedding of the scheduling core of the repository
(src/schedule/mod.rs, src/task/mod.rs, src/context/mod.rs,
src/timeblock/mod.rs) together with theorems settling the specification
claims about it.

Modelling conventions, chosen to mirror the Rust/chrono semantics:

* `chrono::NaiveTime` is a time of day; all arithmetic performed by the
  engine is in whole minutes, so a time is modelled as a `Nat` number of
  minutes since midnight.  `NaiveTime + Duration` wraps around midnight,
  modelled by `addMin` (addition modulo 1440).  The `>=` comparison on
  `NaiveTime` is the numeric comparison of the time of day.
* `chrono::Duration` is signed; a task's remaining duration is modelled as
  an `Int` number of minutes.
* `chrono::NaiveDate` is modelled as an `Int` day number; the weekday of a
  date is its residue modulo 7 (`weekdayOf`).  The engine only ever asks
  whether a date's weekday lies in a context's weekday list, so any fixed
  date-to-weekday mapping is adequate.
* Rust's `VecDeque<Task>` is modelled as a `List Task` whose head is the
  FRONT of the deque: `push_front` is `List.cons`, `pop_back` takes
  `List.getLast?` and drops it with `List.dropLast`.
* The scheduling loop of `populate_time_block` is modelled as a step
  function (`schedIter`) iterated by a fuel-indexed runner (`loopRun`).
  `fuelFor` computes an explicit fuel that is proved sufficient for the
  loop to reach its exit condition, so `populate_time_block` returns
  exactly what the Rust loop returns.
* The scheduler state additionally carries a ghost list `events`
  recording, for each emitted block, which queue produced it (or that it
  was a rest block).  It mirrors the emitted output one-for-one and does
  not influence any control flow; it exists only so that scheduling-order
  properties can be stated.
-/

namespace Preempt

/-- Minutes in a day; `chrono::NaiveTime` arithmetic wraps at midnight. -/
def minutesPerDay : Nat := 1440

/-- `NaiveTime + Duration::minutes(m)`: time-of-day addition, wrapping at
midnight. -/
def addMin (t m : Nat) : Nat := (t + m) % minutesPerDay

/-- `Task` (src/task/mod.rs).  `duration` is the remaining duration in
minutes; `created` is an abstract timestamp (never consulted by the
engine). -/
structure Task where
  name : String
  description : String
  priority : Int
  done : Bool
  duration : Int
  context : Option String
  created : Int
deriving DecidableEq

/-- `Task::do_work` (src/task/mod.rs): decrement the remaining duration,
clamping at zero when less than the decrement remains. -/
def Task.do_work (t : Task) (duration : Int) : Task :=
  if t.duration < duration then { t with duration := 0 }
  else { t with duration := t.duration - duration }

/-- `Task::has_work_remaining` (src/task/mod.rs). -/
def Task.has_work_remaining (t : Task) : Bool :=
  decide (0 < t.duration)

/-- `PriorityClass` (src/schedule/mod.rs). -/
inductive PriorityClass where
  | High
  | Medium
  | Low
deriving DecidableEq

/-- `get_task_priority` (src/schedule/mod.rs): `priority >= 10` is High,
`3 <= priority <= 6` is Medium, everything else is Low. -/
def get_task_priority (task : Task) : PriorityClass :=
  if 10 ≤ task.priority then PriorityClass.High
  else if task.priority ≤ 6 ∧ 3 ≤ task.priority then PriorityClass.Medium
  else PriorityClass.Low

/-- `get_priority_queue` (src/schedule/mod.rs): walk the task list in
order and `push_front` (cons) every task of the requested class. -/
def get_priority_queue (tasks : List Task) (pc : PriorityClass) : List Task :=
  tasks.foldl (fun queue task =>
    if get_task_priority task = pc then task :: queue else queue) []

/-- `TimeBlock` (src/timeblock/mod.rs). -/
structure TimeBlock where
  name : Option String
  start_time : Nat
  end_time : Nat
  start_date : Int
  end_date : Int
deriving DecidableEq

/-- `TimeBlock::new` (src/timeblock/mod.rs). -/
def TimeBlock.new (start_time end_time : Nat) (start_date end_date : Int) : TimeBlock :=
  { name := none, start_time := start_time, end_time := end_time,
    start_date := start_date, end_date := end_date }

/-- `TimeBlock::new_named` (src/timeblock/mod.rs). -/
def TimeBlock.new_named (n : String) (start_time end_time : Nat)
    (start_date end_date : Int) : TimeBlock :=
  { name := some n, start_time := start_time, end_time := end_time,
    start_date := start_date, end_date := end_date }

/-- `create_pomodoro_block` (src/schedule/mod.rs): a 25-minute work block
labelled with the task's name. -/
def create_pomodoro_block (task : Task) (start_time : Nat) (date : Int) : TimeBlock :=
  TimeBlock.new_named ("Task - " ++ task.name)
    start_time (addMin start_time 25) date date

/-- `create_pomodoro_rest` (src/schedule/mod.rs): the label carries the
rest duration, but the recorded end time is `start_time + 25` minutes
exactly as in the source. -/
def create_pomodoro_rest (start_time : Nat) (date : Int) (duration : Nat) : TimeBlock :=
  TimeBlock.new_named ("Break (" ++ toString duration ++ " minutes)")
    start_time (addMin start_time 25) date date

/-- Ghost classification of an emitted block: which queue a work block
was allocated from, or that the block is a rest block. -/
inductive Ev where
  | workHigh
  | workMed
  | workLow
  | rest
deriving DecidableEq

/-- `handle_task` (src/schedule/mod.rs): pop a task from the back of the
queue; if one was there, emit a work block for it, apply 25 minutes of
work, and re-insert it at the front when work remains.  The extra `evs`
and `ev` arguments maintain the ghost event trace in lockstep with the
emitted output. -/
def handle_task (q : List Task) (cur_time : Nat) (schedule_date : Int)
    (out : List TimeBlock) (evs : List Ev) (ev : Ev) :
    List Task × List TimeBlock × List Ev :=
  match q.getLast? with
  | none => (q, out, evs)
  | some task =>
    let worked := task.do_work 25
    ((if worked.has_work_remaining then worked :: q.dropLast else q.dropLast),
     out ++ [create_pomodoro_block task cur_time schedule_date],
     evs ++ [ev])

/-- The local state of the `populate_time_block` loop
(src/schedule/mod.rs), with field names taken from the source locals.
`events` is the ghost trace. -/
structure SchedState where
  populated_time_block : List TimeBlock
  events : List Ev
  high_med_prio_tasks : Nat
  total_tasks : Nat
  forced_low_pri : Bool
  time_block_full : Bool
  high_priority_queue : List Task
  med_priority_queue : List Task
  low_priority_queue : List Task
  cur_time : Nat
deriving DecidableEq

/-- The allocation part of one iteration of the `populate_time_block`
loop: the `if/else if/else` over the three queues, including the forced
low-priority injection and the clock advance by 25 minutes. -/
def branchPhase (date : Int) (s : SchedState) : SchedState :=
  if s.high_priority_queue ≠ [] ∨ s.med_priority_queue ≠ [] then
    if 1 ≤ s.high_med_prio_tasks ∧ s.high_med_prio_tasks % 4 = 0 ∧
        s.forced_low_pri = false then
      { s with
        low_priority_queue :=
          (handle_task s.low_priority_queue s.cur_time date
            s.populated_time_block s.events Ev.workLow).1,
        populated_time_block :=
          (handle_task s.low_priority_queue s.cur_time date
            s.populated_time_block s.events Ev.workLow).2.1,
        events :=
          (handle_task s.low_priority_queue s.cur_time date
            s.populated_time_block s.events Ev.workLow).2.2,
        forced_low_pri := true,
        cur_time := addMin s.cur_time 25 }
    else
      -- The source applies `forced_low_pri = false` and the 25-minute
      -- clock advance after the inner if/else; they are inlined into
      -- each sub-branch here.
      if s.high_priority_queue ≠ [] then
        { s with
          high_priority_queue :=
            (handle_task s.high_priority_queue s.cur_time date
              s.populated_time_block s.events Ev.workHigh).1,
          populated_time_block :=
            (handle_task s.high_priority_queue s.cur_time date
              s.populated_time_block s.events Ev.workHigh).2.1,
          events :=
            (handle_task s.high_priority_queue s.cur_time date
              s.populated_time_block s.events Ev.workHigh).2.2,
          high_med_prio_tasks := s.high_med_prio_tasks + 1,
          forced_low_pri := false,
          cur_time := addMin s.cur_time 25 }
      else if s.med_priority_queue ≠ [] then
        { s with
          med_priority_queue :=
            (handle_task s.med_priority_queue s.cur_time date
              s.populated_time_block s.events Ev.workMed).1,
          populated_time_block :=
            (handle_task s.med_priority_queue s.cur_time date
              s.populated_time_block s.events Ev.workMed).2.1,
          events :=
            (handle_task s.med_priority_queue s.cur_time date
              s.populated_time_block s.events Ev.workMed).2.2,
          high_med_prio_tasks := s.high_med_prio_tasks + 1,
          forced_low_pri := false,
          cur_time := addMin s.cur_time 25 }
      else
        { s with forced_low_pri := false, cur_time := addMin s.cur_time 25 }
  else if s.low_priority_queue ≠ [] then
    { s with
      low_priority_queue :=
        (handle_task s.low_priority_queue s.cur_time date
          s.populated_time_block s.events Ev.workLow).1,
      populated_time_block :=
        (handle_task s.low_priority_queue s.cur_time date
          s.populated_time_block s.events Ev.workLow).2.1,
      events :=
        (handle_task s.low_priority_queue s.cur_time date
          s.populated_time_block s.events Ev.workLow).2.2,
      cur_time := addMin s.cur_time 25 }
  else
    { s with time_block_full := true }

/-- `total_tasks += 1`, performed on every loop pass. -/
def tickPhase (s : SchedState) : SchedState :=
  { s with total_tasks := s.total_tasks + 1 }

/-- The tail of one loop iteration: the window-exhaustion check and,
when the loop is to continue, the rest-block insertion (20 minutes every
4th pass, else 5), whose recorded end time is nonetheless
`start + 25` (see `create_pomodoro_rest`). -/
def restPhase (endT : Nat) (date : Int) (s : SchedState) : SchedState :=
  if endT ≤ s.cur_time then { s with time_block_full := true }
  else if s.time_block_full = false then
    { s with
      populated_time_block :=
        s.populated_time_block ++
          [create_pomodoro_rest s.cur_time date
            (if s.total_tasks % 4 = 0 then 20 else 5)],
      events := s.events ++ [Ev.rest],
      cur_time := addMin s.cur_time (if s.total_tasks % 4 = 0 then 20 else 5) }
  else s

/-- One full pass of the `while !time_block_full` loop body. -/
def schedIter (endT : Nat) (date : Int) (s : SchedState) : SchedState :=
  restPhase endT date (tickPhase (branchPhase date s))

/-- Fuel-indexed iteration of the loop body; stops as soon as
`time_block_full` is set, exactly like the source's `while` condition. -/
def loopRun (endT : Nat) (date : Int) : Nat → SchedState → SchedState
  | 0, s => s
  | fuel + 1, s =>
    if s.time_block_full then s else loopRun endT date fuel (schedIter endT date s)

/-- Number of times a task will be popped before it leaves its queue for
good: one pop for a task with no work left, otherwise one pop per started
25-minute slice. -/
def taskUnits (t : Task) : Nat :=
  if t.duration ≤ 0 then 1 else (t.duration - 1).toNat / 25 + 1

/-- Total pops remaining in a queue. -/
def queueUnits (q : List Task) : Nat := (q.map taskUnits).sum

/-- Total pops remaining across the three queues of a state. -/
def stateWork (s : SchedState) : Nat :=
  queueUnits s.high_priority_queue + queueUnits s.med_priority_queue +
    queueUnits s.low_priority_queue

/-- Termination measure for the loop. -/
def stateMeasure (s : SchedState) : Nat :=
  2 * stateWork s + (if s.forced_low_pri then 1 else 2)

/-- Fuel sufficient for `loopRun` to reach the loop's exit condition
(proved below); computed from the input task list alone. -/
def fuelFor (tasks : List Task) : Nat :=
  2 * (tasks.map taskUnits).sum + 2

/-- The initial loop state of `populate_time_block`. -/
def initState (tasks : List Task) (schedule_block : TimeBlock) : SchedState :=
  { populated_time_block := []
    events := []
    high_med_prio_tasks := 0
    total_tasks := 0
    forced_low_pri := false
    time_block_full := false
    high_priority_queue := get_priority_queue tasks PriorityClass.High
    med_priority_queue := get_priority_queue tasks PriorityClass.Medium
    low_priority_queue := get_priority_queue tasks PriorityClass.Low
    cur_time := schedule_block.start_time }

/-- The final loop state of `populate_time_block` on the given inputs. -/
def runSched (tasks : List Task) (schedule_block : TimeBlock) : SchedState :=
  loopRun schedule_block.end_time schedule_block.start_date
    (fuelFor tasks) (initState tasks schedule_block)

/-- `populate_time_block` (src/schedule/mod.rs): the list of blocks
emitted by the scheduling loop. -/
def populate_time_block (tasks : List Task) (schedule_block : TimeBlock) :
    List TimeBlock :=
  (runSched tasks schedule_block).populated_time_block

/-- Weekday of a modelled date: its residue modulo 7. -/
def weekdayOf (d : Int) : Int := d % 7

/-- `Context` (src/context/mod.rs); `days` is the list of active
weekdays, `stop` is the source's `end` field (a Lean keyword).
`transition` is informational and the exception list is out of the
engine's scope, so neither is modelled. -/
structure Context where
  name : String
  days : List Int
  start : Nat
  stop : Nat
deriving DecidableEq

/-- `Context::get_timeblock` (src/context/mod.rs): the context's window
on the given day when the day's weekday is one of the context's days. -/
def Context.get_timeblock (c : Context) (day : Int) : Option TimeBlock :=
  if weekdayOf day ∈ c.days then some (TimeBlock.new c.start c.stop day day)
  else none

/-- The per-task test of `Task::filter_context_tasks`
(src/task/mod.rs): the task references a context, is not done, and the
referenced name matches the context's name case-insensitively. -/
def contextTaskPred (context : Context) (t : Task) : Bool :=
  match t.context with
  | some cn => !t.done && (cn.toLower == context.name.toLower)
  | none => false

/-- `Task::filter_context_tasks` (src/task/mod.rs): the source loop
pushes each matching task in input order, i.e. a filter. -/
def Task.filter_context_tasks (context : Context) (tasks : List Task) : List Task :=
  tasks.filter (contextTaskPred context)

/-- `build_schedule` (src/schedule/mod.rs): walk the contexts in order,
and for each one active on the block's start date, append the window
schedule of that context's not-done tasks. -/
def build_schedule (contexts : List Context) (tasks : List Task)
    (schedule_block : TimeBlock) : List TimeBlock :=
  contexts.foldl (fun schedule context =>
    match context.get_timeblock schedule_block.start_date with
    | some timeblock =>
      schedule ++ populate_time_block
        (Task.filter_context_tasks context tasks) timeblock
    | none => schedule) []

/-- Modelled from the spec (section 4.5 DaySchedulePlanner), for
comparison with `build_schedule` in claim C8: for each context whose
weekday set contains the target date's weekday, in context list order,
schedule exactly the not-done tasks naming that context
(case-insensitively) inside the context's window for the date, and
concatenate the per-context schedules. -/
def buildScheduleSpec (contexts : List Context) (tasks : List Task)
    (date : Int) : List TimeBlock :=
  (contexts.map (fun c =>
    if weekdayOf date ∈ c.days then
      populate_time_block (tasks.filter (contextTaskPred c))
        (TimeBlock.new c.start c.stop date date)
    else [])).flatten

/-- A task with the given name, priority and remaining duration (in
minutes), not done and without a context reference. -/
def mkTask (n : String) (p d : Int) : Task :=
  { name := n, description := "", priority := p, done := false,
    duration := d, context := none, created := 0 }

/-- Iterated application of 25-minute work slices to a task
(`Task::do_work(Duration::minutes(25))`, N times). -/
def applyWork (t : Task) : Nat → Task
  | 0 => t
  | n + 1 => (applyWork t n).do_work 25

/-- The label the allocator gives to a work block for a task. -/
def labelOf (t : Task) : String := "Task - " ++ t.name

/-- Number of blocks in a list carrying a given label. -/
def countName (out : List TimeBlock) (l : String) : Nat :=
  out.countP (fun b => decide (b.name = some l))

/-- Number of tasks in a queue carrying a given work-block label. -/
def countQ (q : List Task) (l : String) : Nat :=
  q.countP (fun u => decide (labelOf u = l))

/-- Number of tasks in the input list carrying a given work-block label. -/
def countLabel (tasks : List Task) (l : String) : Nat :=
  tasks.countP (fun u => decide (labelOf u = l))

/-- Is the ghost event a work block (as opposed to a rest block)? -/
def isWork : Ev → Bool
  | Ev.rest => false
  | _ => true

/-- Is the ghost event a High- or Medium-queue work block? -/
def isHM : Ev → Bool
  | Ev.workHigh => true
  | Ev.workMed => true
  | _ => false

/-- The work events (High/Medium/Low allocations) of a state's ghost
trace, with rest events removed. -/
def workEv (s : SchedState) : List Ev := s.events.filter isWork

/-- Length of the maximal all-High/Medium suffix of an event list. -/
def tailHM (evs : List Ev) : Nat := (evs.reverse.takeWhile isHM).length

/-- No k+1 consecutive High/Medium work events occur anywhere before a
later Low work event: every all-High/Medium run that still has a Low
event after it has length at most k. -/
def lowAfterBound (k : Nat) (evs : List Ev) : Prop :=
  ∀ pre run post, evs = pre ++ run ++ post →
    (∀ e ∈ run, isHM e = true) → Ev.workLow ∈ post → run.length ≤ k

/-- The event list contains no 5 consecutive High/Medium work events at
all. -/
def noFive (evs : List Ev) : Prop :=
  ∀ pre run post, evs = pre ++ run ++ post → run.length = 5 →
    (∀ e ∈ run, isHM e = true) → False

/-- The length the all-High/Medium suffix of the work-event trace must
have, as a function of the loop counters, while the Low queue is
non-empty and High/Medium work remains. -/
def expectedTail (hm : Nat) (fl : Bool) : Nat :=
  if fl then 0 else if hm = 0 then 0 else (hm - 1) % 4 + 1

/-- Invariant of the scheduling loop backing the anti-starvation bound
(claim C2). -/
def C2Inv (s : SchedState) : Prop :=
  (s.forced_low_pri = true →
     s.high_med_prio_tasks % 4 = 0 ∧ 1 ≤ s.high_med_prio_tasks) ∧
  (s.low_priority_queue ≠ [] →
     tailHM (workEv s) ≤ 4 ∧
     ((s.high_priority_queue ≠ [] ∨ s.med_priority_queue ≠ []) →
        tailHM (workEv s) = expectedTail s.high_med_prio_tasks s.forced_low_pri) ∧
     noFive (workEv s)) ∧
  (s.low_priority_queue = [] → lowAfterBound 4 (workEv s))

/-- Invariant of the scheduling loop backing the zero-duration-task
block count (claim C3), for a fixed label `l` and bound `K`. -/
def C3Inv (l : String) (K : Nat) (s : SchedState) : Prop :=
  countName s.populated_time_block l + countQ s.high_priority_queue l +
      countQ s.med_priority_queue l + countQ s.low_priority_queue l ≤ K ∧
  ∀ u, (u ∈ s.high_priority_queue ∨ u ∈ s.med_priority_queue ∨
        u ∈ s.low_priority_queue) → labelOf u = l → u.duration ≤ 0

/-- Invariant of the scheduling loop on inputs whose tasks are all
High-class (claim C6). -/
def C6Inv (s : SchedState) : Prop :=
  s.med_priority_queue = [] ∧ s.low_priority_queue = [] ∧
  ∀ e ∈ s.events, e = Ev.workHigh ∨ e = Ev.rest

/-- Every-block invariant of the scheduling loop (claim C9): each block
records an end time 25 minutes after its start, and carries either a
rest label (5 or 20 minutes) or a task label. -/
def C9Inv (s : SchedState) : Prop :=
  ∀ b ∈ s.populated_time_block,
    b.end_time = addMin b.start_time 25 ∧
    (b.name = some "Break (5 minutes)" ∨ b.name = some "Break (20 minutes)" ∨
     ∃ n, b.name = some ("Task - " ++ n))

/-- The output sequence is gap-free: each block starts where the
previous block's 25-minute work slice ended, or where the previous rest
block's actual 5- or 20-minute clock advance ended. -/
def gapFreeB : List TimeBlock → Bool
  | [] => true
  | [_] => true
  | a :: b :: rest =>
    (decide (b.start_time = addMin a.start_time 25) ||
     decide (b.start_time = addMin a.start_time 5) ||
     decide (b.start_time = addMin a.start_time 20)) && gapFreeB (b :: rest)

/-- Propositional form of `gapFreeB`. -/
def gapFree (out : List TimeBlock) : Prop := gapFreeB out = true

/-- The forced low-priority injection fires on the next iteration. -/
def forcedCond (s : SchedState) : Prop :=
  (s.high_priority_queue ≠ [] ∨ s.med_priority_queue ≠ []) ∧
  1 ≤ s.high_med_prio_tasks ∧ s.high_med_prio_tasks % 4 = 0 ∧
  s.forced_low_pri = false

/-- Scenario input of claim C1: one High-priority task with 50 minutes
of work. -/
def c1Tasks : List Task := [mkTask "T" 10 50]

/-- Scenario window of claim C1: 09:00 to 10:00. -/
def c1Window : TimeBlock := TimeBlock.new 540 600 0 0

/-- The output claim C1 predicts: work, rest spanning five minutes,
work, and nothing else. -/
def c1Claimed : List TimeBlock :=
  [ TimeBlock.new_named "Task - T" 540 565 0 0,
    TimeBlock.new_named "Break (5 minutes)" 565 570 0 0,
    TimeBlock.new_named "Task - T" 570 595 0 0 ]

/-- The output the code actually produces on claim C1's scenario. -/
def c1Actual : List TimeBlock :=
  [ TimeBlock.new_named "Task - T" 540 565 0 0,
    TimeBlock.new_named "Break (5 minutes)" 565 590 0 0,
    TimeBlock.new_named "Task - T" 570 595 0 0,
    TimeBlock.new_named "Break (5 minutes)" 595 620 0 0 ]

/-- Counterexample input of claim C2: five Medium tasks and one Low
task, each 25 minutes. -/
def c2Tasks : List Task :=
  [ mkTask "M1" 3 25, mkTask "M2" 3 25, mkTask "M3" 3 25,
    mkTask "M4" 3 25, mkTask "M5" 3 25, mkTask "L1" 0 25 ]

/-- A full-day window for the anti-starvation counterexample. -/
def c2Window : TimeBlock := TimeBlock.new 0 1439 0 0

/-- Counterexample input of claim C3: one High-class task with zero
remaining duration. -/
def c3Tasks : List Task := [mkTask "Z" 10 0]

/-- Window for the zero-duration counterexample. -/
def c3Window : TimeBlock := TimeBlock.new 540 600 0 0

/-- Counterexample input of claim C6: one High task needing five
25-minute slices, so the forced-injection point is reached with more
work left. -/
def c6Tasks : List Task := [mkTask "H" 10 125]

/-- Window for the only-High counterexample. -/
def c6Window : TimeBlock := TimeBlock.new 540 1439 0 0

/-- A state whose Medium queue is non-empty and whose forced-injection
condition does not hold, for exercising the work-decrease property. -/
def c10StateA : SchedState := initState c2Tasks c2Window

/-- A state with only the Low queue non-empty. -/
def c10StateB : SchedState := initState [mkTask "L" 0 25] c2Window

/-- A state at which the forced Low injection fires on the next
iteration. -/
def c10StateC : SchedState :=
  { initState c2Tasks c2Window with high_med_prio_tasks := 4 }

/-- A state with all three queues empty. -/
def c10StateD : SchedState := initState [] c2Window

theorem loopRun_of_full (endT : Nat) (date : Int) (fuel : Nat) (s : SchedState)
    (h : s.time_block_full = true) : loopRun endT date fuel s = s := by
  cases fuel with
  | zero => rfl
  | succ n => simp [loopRun, h]

theorem loopRun_inv (endT : Nat) (date : Int) (P : SchedState → Prop)
    (hstep : ∀ s, P s → P (schedIter endT date s)) :
    ∀ fuel s, P s → P (loopRun endT date fuel s) := by
  intro fuel
  induction fuel with
  | zero => intro s hs; exact hs
  | succ n ih =>
    intro s hs
    by_cases hf : s.time_block_full = true
    · simpa [loopRun, hf] using hs
    · simpa [loopRun, hf] using ih _ (hstep s hs)

theorem handle_task_nil (c : Nat) (d : Int) (out : List TimeBlock)
    (evs : List Ev) (ev : Ev) :
    handle_task [] c d out evs ev = ([], out, evs) := rfl

theorem handle_task_concat (l : List Task) (a : Task) (c : Nat) (d : Int)
    (out : List TimeBlock) (evs : List Ev) (ev : Ev) :
    handle_task (l ++ [a]) c d out evs ev =
      ((if (a.do_work 25).has_work_remaining then a.do_work 25 :: l else l),
       out ++ [create_pomodoro_block a c d], evs ++ [ev]) := by
  simp [handle_task, List.getLast?_concat, List.dropLast_concat]

theorem get_priority_queue_eq (tasks : List Task) (pc : PriorityClass) :
    get_priority_queue tasks pc =
      (tasks.filter (fun t => decide (get_task_priority t = pc))).reverse := by
  suffices h : ∀ acc, tasks.foldl
      (fun queue task =>
        if get_task_priority task = pc then task :: queue else queue) acc =
      (tasks.filter (fun t => decide (get_task_priority t = pc))).reverse ++ acc by
    simpa using h []
  induction tasks with
  | nil => intro acc; rfl
  | cons t ts ih =>
    intro acc
    by_cases h : get_task_priority t = pc <;>
      simp [List.filter_cons, h, ih]

theorem filter_isWork_append_rest (evs : List Ev) :
    (evs ++ [Ev.rest]).filter isWork = evs.filter isWork := by
  simp [isWork]

theorem filter_isWork_append_work (evs : List Ev) (e : Ev)
    (h : isWork e = true) :
    (evs ++ [e]).filter isWork = evs.filter isWork ++ [e] := by
  simp [h]

theorem takeWhile_append_all (p : Ev → Bool) (a b : List Ev)
    (h : ∀ x ∈ a, p x = true) :
    (a ++ b).takeWhile p = a ++ b.takeWhile p := by
  induction a with
  | nil => simp
  | cons x xs ih =>
    simp only [List.cons_append, List.takeWhile_cons]
    rw [h x (by simp)]
    simp only [ite_true]
    rw [ih (fun y hy => h y (by simp [hy]))]

theorem tailHM_append (evs : List Ev) (e : Ev) :
    tailHM (evs ++ [e]) = if isHM e then tailHM evs + 1 else 0 := by
  by_cases h : isHM e = true <;>
    simp [tailHM, List.takeWhile_cons, h]

theorem tailHM_suffix_ge (evs pre run : List Ev) (heq : evs = pre ++ run)
    (h : ∀ e ∈ run, isHM e = true) : run.length ≤ tailHM evs := by
  subst heq
  unfold tailHM
  rw [List.reverse_append]
  rw [takeWhile_append_all _ _ _ (fun x hx => h x (List.mem_reverse.mp hx))]
  simp

theorem concat_inj (l₁ l₂ : List Ev) (a b : Ev) (h : l₁ ++ [a] = l₂ ++ [b]) :
    l₁ = l₂ ∧ a = b := by
  have h' := List.append_inj' h (by simp)
  refine ⟨h'.1, ?_⟩
  have := h'.2
  simpa using this

theorem noFive_nil : noFive [] := by
  intro pre run post heq h5 _
  have := congrArg List.length heq
  simp at this
  omega

theorem noFive_run_le (evs pre run post : List Ev) (hn : noFive evs)
    (heq : evs = pre ++ run ++ post) (hall : ∀ e ∈ run, isHM e = true) :
    run.length ≤ 4 := by
  by_contra hlen
  push_neg at hlen
  refine hn pre (run.take 5) (run.drop 5 ++ post) ?_ ?_ ?_
  · rw [heq, ← List.append_assoc,
      List.append_assoc pre (run.take 5) (run.drop 5),
      List.take_append_drop]
  · rw [List.length_take]
    omega
  · intro e he
    exact hall e (List.mem_of_mem_take he)

theorem noFive_append (evs : List Ev) (e : Ev) (hn : noFive evs)
    (ht : tailHM (evs ++ [e]) ≤ 4) : noFive (evs ++ [e]) := by
  intro pre run post heq h5 hall
  rcases post.eq_nil_or_concat with hpost | ⟨post₀, x, hpost⟩
  · subst hpost
    rw [List.append_nil] at heq
    have := tailHM_suffix_ge (evs ++ [e]) pre run heq hall
    omega
  · subst hpost
    rw [List.concat_eq_append, ← List.append_assoc] at heq
    obtain ⟨heq', -⟩ := concat_inj _ _ _ _ heq
    exact hn pre run post₀ heq' h5 hall

theorem lowAfterBound_nil : lowAfterBound 4 [] := by
  intro pre run post heq hall hlow
  have h2 := heq.symm
  rw [List.append_assoc] at h2
  obtain ⟨-, h3⟩ := List.append_eq_nil.mp h2
  obtain ⟨-, h4⟩ := List.append_eq_nil.mp h3
  subst h4
  simp at hlow

theorem lowAfterBound_append_nonlow (evs : List Ev) (e : Ev)
    (h : lowAfterBound 4 evs) (he : e ≠ Ev.workLow) :
    lowAfterBound 4 (evs ++ [e]) := by
  intro pre run post heq hall hlow
  rcases post.eq_nil_or_concat with hpost | ⟨post₀, x, hpost⟩
  · subst hpost; simp at hlow
  · subst hpost
    rw [List.concat_eq_append, ← List.append_assoc] at heq
    rw [List.concat_eq_append] at hlow
    obtain ⟨heq', hx⟩ := concat_inj _ _ _ _ heq
    rcases List.mem_append.mp hlow with hlow' | hlow'
    · exact h pre run post₀ heq' hall hlow'
    · simp at hlow'
      rw [hlow', hx] at he
      simp at he

theorem lowAfterBound_append_of_noFive (evs : List Ev) (e : Ev)
    (hn : noFive evs) : lowAfterBound 4 (evs ++ [e]) := by
  intro pre run post heq hall hlow
  rcases post.eq_nil_or_concat with hpost | ⟨post₀, x, hpost⟩
  · subst hpost; simp at hlow
  · subst hpost
    rw [List.concat_eq_append, ← List.append_assoc] at heq
    obtain ⟨heq', -⟩ := concat_inj _ _ _ _ heq
    exact noFive_run_le evs pre run post₀ hn heq' hall

theorem lowAfterBound_of_noFive (evs : List Ev) (hn : noFive evs) :
    lowAfterBound 4 evs := by
  intro pre run post heq hall _
  exact noFive_run_le evs pre run post hn heq hall

theorem branchPhase_terminal (date : Int) (s : SchedState)
    (h1 : s.high_priority_queue = []) (h2 : s.med_priority_queue = [])
    (h3 : s.low_priority_queue = []) :
    branchPhase date s = { s with time_block_full := true } := by
  unfold branchPhase
  rw [if_neg (by simp [h1, h2]), if_neg (by simp [h3])]

theorem branchPhase_lowOnly (date : Int) (s : SchedState)
    (h1 : s.high_priority_queue = []) (h2 : s.med_priority_queue = [])
    (h3 : s.low_priority_queue ≠ []) :
    branchPhase date s =
      { s with
        low_priority_queue := (handle_task s.low_priority_queue s.cur_time date
          s.populated_time_block s.events Ev.workLow).1,
        populated_time_block := (handle_task s.low_priority_queue s.cur_time date
          s.populated_time_block s.events Ev.workLow).2.1,
        events := (handle_task s.low_priority_queue s.cur_time date
          s.populated_time_block s.events Ev.workLow).2.2,
        cur_time := addMin s.cur_time 25 } := by
  unfold branchPhase
  rw [if_neg (by simp [h1, h2]), if_pos h3]

theorem branchPhase_forced (date : Int) (s : SchedState)
    (houter : s.high_priority_queue ≠ [] ∨ s.med_priority_queue ≠ [])
    (hc : 1 ≤ s.high_med_prio_tasks ∧ s.high_med_prio_tasks % 4 = 0 ∧
      s.forced_low_pri = false) :
    branchPhase date s =
      { s with
        low_priority_queue := (handle_task s.low_priority_queue s.cur_time date
          s.populated_time_block s.events Ev.workLow).1,
        populated_time_block := (handle_task s.low_priority_queue s.cur_time date
          s.populated_time_block s.events Ev.workLow).2.1,
        events := (handle_task s.low_priority_queue s.cur_time date
          s.populated_time_block s.events Ev.workLow).2.2,
        forced_low_pri := true,
        cur_time := addMin s.cur_time 25 } := by
  unfold branchPhase
  rw [if_pos houter, if_pos hc]

theorem branchPhase_high (date : Int) (s : SchedState)
    (hh : s.high_priority_queue ≠ [])
    (hnf : ¬(1 ≤ s.high_med_prio_tasks ∧ s.high_med_prio_tasks % 4 = 0 ∧
      s.forced_low_pri = false)) :
    branchPhase date s =
      { s with
        high_priority_queue := (handle_task s.high_priority_queue s.cur_time date
          s.populated_time_block s.events Ev.workHigh).1,
        populated_time_block := (handle_task s.high_priority_queue s.cur_time date
          s.populated_time_block s.events Ev.workHigh).2.1,
        events := (handle_task s.high_priority_queue s.cur_time date
          s.populated_time_block s.events Ev.workHigh).2.2,
        high_med_prio_tasks := s.high_med_prio_tasks + 1,
        forced_low_pri := false,
        cur_time := addMin s.cur_time 25 } := by
  unfold branchPhase
  rw [if_pos (Or.inl hh), if_neg hnf, if_pos hh]

theorem branchPhase_med (date : Int) (s : SchedState)
    (hh : s.high_priority_queue = []) (hm : s.med_priority_queue ≠ [])
    (hnf : ¬(1 ≤ s.high_med_prio_tasks ∧ s.high_med_prio_tasks % 4 = 0 ∧
      s.forced_low_pri = false)) :
    branchPhase date s =
      { s with
        med_priority_queue := (handle_task s.med_priority_queue s.cur_time date
          s.populated_time_block s.events Ev.workMed).1,
        populated_time_block := (handle_task s.med_priority_queue s.cur_time date
          s.populated_time_block s.events Ev.workMed).2.1,
        events := (handle_task s.med_priority_queue s.cur_time date
          s.populated_time_block s.events Ev.workMed).2.2,
        high_med_prio_tasks := s.high_med_prio_tasks + 1,
        forced_low_pri := false,
        cur_time := addMin s.cur_time 25 } := by
  unfold branchPhase
  rw [if_pos (Or.inr hm), if_neg hnf, if_neg (by simp [hh]), if_pos hm]

theorem restPhase_timeout (endT : Nat) (date : Int) (s : SchedState)
    (h : endT ≤ s.cur_time) :
    restPhase endT date s = { s with time_block_full := true } := by
  unfold restPhase
  rw [if_pos h]

theorem restPhase_insert (endT : Nat) (date : Int) (s : SchedState)
    (h : ¬ endT ≤ s.cur_time) (h2 : s.time_block_full = false) :
    restPhase endT date s =
      { s with
        populated_time_block := s.populated_time_block ++
          [create_pomodoro_rest s.cur_time date
            (if s.total_tasks % 4 = 0 then 20 else 5)],
        events := s.events ++ [Ev.rest],
        cur_time := addMin s.cur_time
          (if s.total_tasks % 4 = 0 then 20 else 5) } := by
  unfold restPhase
  rw [if_neg h, if_pos h2]

theorem restPhase_skip (endT : Nat) (date : Int) (s : SchedState)
    (h : ¬ endT ≤ s.cur_time) (h2 : s.time_block_full = true) :
    restPhase endT date s = s := by
  unfold restPhase
  rw [if_neg h, if_neg (by simp [h2])]

/-- C4: for every integer priority, the classifier returns High exactly
when the priority is at least 10, Medium exactly when it lies between 3
and 6 inclusive, and Low exactly otherwise (in particular for 7, 8, 9
and everything at most 2); being a total function into the three-element
class type, it never fails and always returns exactly one class. -/
theorem priority_classifier_correct (t : Task) :
    (get_task_priority t = PriorityClass.High ↔ 10 ≤ t.priority) ∧
    (get_task_priority t = PriorityClass.Medium ↔
      3 ≤ t.priority ∧ t.priority ≤ 6) ∧
    (get_task_priority t = PriorityClass.Low ↔
      t.priority < 10 ∧ (t.priority < 3 ∨ 6 < t.priority)) := by
  unfold get_task_priority
  split_ifs with h1 h2 <;>
    refine ⟨?_, ?_, ?_⟩ <;> simp_all <;> omega

/-- The remaining duration after N 25-minute slices is the clamped
difference. -/
theorem applyWork_duration (t : Task) (h : 0 ≤ t.duration) (N : Nat) :
    (applyWork t N).duration = max 0 (t.duration - 25 * N) := by
  induction N with
  | zero =>
    simp only [applyWork, Nat.cast_zero, mul_zero, sub_zero]
    exact (max_eq_right h).symm
  | succ n ih =>
    simp only [applyWork, Task.do_work]
    rw [ih]
    rcases le_or_lt (t.duration - 25 * (n : Int)) 0 with hle | hpos
    · rw [max_eq_left hle]
      rw [if_pos (by omega : (0 : Int) < 25)]
      rw [max_eq_left (by push_cast; omega)]
    · rw [max_eq_right (le_of_lt hpos)]
      by_cases h25 : t.duration - 25 * (n : Int) < 25
      · rw [if_pos h25, max_eq_left (by push_cast; omega)]
      · rw [if_neg h25, max_eq_right (by push_cast; omega)]
        push_cast
        ring

/-- C5: for a task with non-negative remaining duration, N applied
25-minute work decrements leave exactly max(0, original − 25·N) minutes,
never negative; and a single decrement by more than what remains clamps
the duration to zero. -/
theorem do_work_clamps (t : Task) (N : Nat) (d : Int) (h : 0 ≤ t.duration) :
    (applyWork t N).duration = max 0 (t.duration - 25 * N) ∧
    0 ≤ (applyWork t N).duration ∧
    (t.duration < d → (t.do_work d).duration = 0) := by
  refine ⟨applyWork_duration t h N, ?_, ?_⟩
  · rw [applyWork_duration t h N]
    exact le_max_left 0 _
  · intro hlt
    simp [Task.do_work, hlt]

/-- Witness for C5 at a 60-minute task: two slices leave 10 minutes, and
a 100-minute decrement clamps to zero. -/
theorem do_work_clamps_witness :
    (applyWork (mkTask "W" 1 60) 2).duration =
      max 0 ((mkTask "W" 1 60).duration - 25 * 2) ∧
    0 ≤ (applyWork (mkTask "W" 1 60) 2).duration ∧
    ((mkTask "W" 1 60).do_work 100).duration = 0 := by
  obtain ⟨h1, h2, h3⟩ := do_work_clamps (mkTask "W" 1 60) 2 100 (by decide)
  exact ⟨h1, h2, h3 (by decide)⟩

/-- C7: the class-queue builder holds the matching tasks in reverse
input order (each pushed at the front), so the first matching input task
sits at the back and is the first one the allocator pops; and a popped
task that still has work left is re-inserted at the front, so in
back-to-front service order it comes after every other currently queued
task of its class. -/
theorem class_queue_roundrobin (tasks : List Task) (pc : PriorityClass)
    (c : Nat) (d : Int) (out : List TimeBlock) (evs : List Ev) (ev : Ev) :
    get_priority_queue tasks pc =
      (tasks.filter (fun t => decide (get_task_priority t = pc))).reverse ∧
    (get_priority_queue tasks pc).getLast? =
      (tasks.filter (fun t => decide (get_task_priority t = pc))).head? ∧
    (∀ (l : List Task) (a : Task), (a.do_work 25).has_work_remaining = true →
      (handle_task (l ++ [a]) c d out evs ev).1 = a.do_work 25 :: l ∧
      ((handle_task (l ++ [a]) c d out evs ev).1).reverse =
        l.reverse ++ [a.do_work 25]) := by
  refine ⟨get_priority_queue_eq tasks pc, ?_, ?_⟩
  · rw [get_priority_queue_eq]
    exact List.getLast?_reverse _
  · intro l a hw
    rw [handle_task_concat]
    simp [hw]

/-- Witness for C7: popping from a two-task queue re-queues the
still-unfinished popped task at the front, behind the other task in
service order. -/
theorem class_queue_roundrobin_witness :
    (handle_task ([mkTask "A" 10 25] ++ [mkTask "B" 10 50]) 540 0 [] []
        Ev.workHigh).1 = (mkTask "B" 10 50).do_work 25 :: [mkTask "A" 10 25] ∧
    ((handle_task ([mkTask "A" 10 25] ++ [mkTask "B" 10 50]) 540 0 [] []
        Ev.workHigh).1).reverse =
      [mkTask "A" 10 25].reverse ++ [(mkTask "B" 10 50).do_work 25] :=
  (class_queue_roundrobin [] PriorityClass.High 540 0 [] [] Ev.workHigh).2.2
    [mkTask "A" 10 25] (mkTask "B" 10 50) (by decide)

/-- `build_schedule` is the in-order concatenation of the per-active-
context window schedules of the context's matching not-done tasks. -/
theorem build_schedule_eq_spec (contexts : List Context) (tasks : List Task)
    (b : TimeBlock) :
    build_schedule contexts tasks b = buildScheduleSpec contexts tasks b.start_date := by
  suffices h : ∀ (cs : List Context) (acc : List TimeBlock),
      cs.foldl (fun schedule context =>
        match context.get_timeblock b.start_date with
        | some timeblock =>
          schedule ++ populate_time_block
            (Task.filter_context_tasks context tasks) timeblock
        | none => schedule) acc =
      acc ++ (cs.map (fun c =>
        if weekdayOf b.start_date ∈ c.days then
          populate_time_block (tasks.filter (contextTaskPred c))
            (TimeBlock.new c.start c.stop b.start_date b.start_date)
        else [])).flatten by
    simpa [build_schedule, buildScheduleSpec] using h contexts []
  intro cs
  induction cs with
  | nil => intro acc; simp
  | cons ctx rest ih =>
    intro acc
    rw [List.foldl_cons, ih]
    by_cases hd : weekdayOf b.start_date ∈ ctx.days <;>
      simp [Context.get_timeblock, hd, Task.filter_context_tasks,
        List.append_assoc]

/-- C8: `build_schedule` walks the contexts in list order, a context
contributes exactly when its weekday set contains the target date's
weekday, each active context schedules exactly the not-done tasks that
name it case-insensitively inside its window for the date, and the
result is the plain concatenation of the per-context schedules. -/
theorem build_schedule_correct (contexts : List Context) (tasks : List Task)
    (b : TimeBlock) :
    build_schedule contexts tasks b =
      buildScheduleSpec contexts tasks b.start_date ∧
    (∀ (c : Context) (dte : Int),
      (c.get_timeblock dte).isSome = true ↔ weekdayOf dte ∈ c.days) ∧
    (∀ (c : Context) (ts : List Task),
      Task.filter_context_tasks c ts = ts.filter (contextTaskPred c)) := by
  refine ⟨build_schedule_eq_spec contexts tasks b, ?_, fun c ts => rfl⟩
  intro c dte
  unfold Context.get_timeblock
  split_ifs with h <;> simp [h]

theorem handle_task_out (q : List Task) (c : Nat) (d : Int)
    (out : List TimeBlock) (evs : List Ev) (ev : Ev) :
    (handle_task q c d out evs ev).2.1 = out ∨
    ∃ a, (handle_task q c d out evs ev).2.1 =
      out ++ [create_pomodoro_block a c d] := by
  rcases q.eq_nil_or_concat with h | ⟨l, a, h⟩ <;> subst h
  · left; rfl
  · right
    exact ⟨a, by rw [List.concat_eq_append, handle_task_concat]⟩

theorem branchPhase_out (date : Int) (s : SchedState) :
    (branchPhase date s).populated_time_block = s.populated_time_block ∨
    ∃ a c, (branchPhase date s).populated_time_block =
      s.populated_time_block ++ [create_pomodoro_block a c date] := by
  unfold branchPhase
  split_ifs with h1 h2 h3 h4
  · rcases handle_task_out s.low_priority_queue s.cur_time date
      s.populated_time_block s.events Ev.workLow with h | ⟨a, h⟩
    · left; exact h
    · right; exact ⟨a, s.cur_time, h⟩
  · rcases handle_task_out s.high_priority_queue s.cur_time date
      s.populated_time_block s.events Ev.workHigh with h | ⟨a, h⟩
    · left; exact h
    · right; exact ⟨a, s.cur_time, h⟩
  · rcases handle_task_out s.med_priority_queue s.cur_time date
      s.populated_time_block s.events Ev.workMed with h | ⟨a, h⟩
    · left; exact h
    · right; exact ⟨a, s.cur_time, h⟩
  · left; rfl
  · rcases handle_task_out s.low_priority_queue s.cur_time date
      s.populated_time_block s.events Ev.workLow with h | ⟨a, h⟩
    · left; exact h
    · right; exact ⟨a, s.cur_time, h⟩
  · left; rfl

theorem restPhase_out (endT : Nat) (date : Int) (s : SchedState) :
    (restPhase endT date s).populated_time_block = s.populated_time_block ∨
    ∃ rd, (rd = 5 ∨ rd = 20) ∧
      (restPhase endT date s).populated_time_block =
        s.populated_time_block ++ [create_pomodoro_rest s.cur_time date rd] := by
  unfold restPhase
  split_ifs with h1 h2 h3
  · left; rfl
  · right; exact ⟨20, Or.inr rfl, rfl⟩
  · right; exact ⟨5, Or.inl rfl, rfl⟩
  · left; rfl

theorem C9Inv_step (endT : Nat) (date : Int) (s : SchedState) (h : C9Inv s) :
    C9Inv (schedIter endT date s) := by
  intro b hb
  unfold schedIter at hb
  have hbr : ∀ b, b ∈ (tickPhase (branchPhase date s)).populated_time_block →
      b.end_time = addMin b.start_time 25 ∧
      (b.name = some "Break (5 minutes)" ∨ b.name = some "Break (20 minutes)" ∨
        ∃ n, b.name = some ("Task - " ++ n)) := by
    intro b hb
    have hb' : b ∈ (branchPhase date s).populated_time_block := hb
    rcases branchPhase_out date s with ho | ⟨a, c, ho⟩
    · rw [ho] at hb'
      exact h b hb'
    · rw [ho] at hb'
      rcases List.mem_append.mp hb' with hmem | hmem
      · exact h b hmem
      · have hbeq : b = create_pomodoro_block a c date := by simpa using hmem
        subst hbeq
        exact ⟨rfl, Or.inr (Or.inr ⟨a.name, rfl⟩)⟩
  rcases restPhase_out endT date (tickPhase (branchPhase date s)) with ho | ⟨rd, hrd, ho⟩
  · rw [ho] at hb
    exact hbr b hb
  · rw [ho] at hb
    rcases List.mem_append.mp hb with hmem | hmem
    · exact hbr b hmem
    · have hbeq : b = create_pomodoro_rest
          (tickPhase (branchPhase date s)).cur_time date rd := by simpa using hmem
      subst hbeq
      rcases hrd with h5 | h20

      · subst h5
        refine ⟨rfl, Or.inl ?_⟩
        show some ("Break (" ++ toString (5 : Nat) ++ " minutes)") =
          some "Break (5 minutes)"
        decide
      · subst h20
        refine ⟨rfl, Or.inr (Or.inl ?_)⟩
        show some ("Break (" ++ toString (20 : Nat) ++ " minutes)") =
          some "Break (20 minutes)"
        decide

/-- C9: every block the scheduler emits — in particular every rest
block, whatever rest duration (5 or 20 minutes) its label names and
however far the clock actually advances — records an end time exactly 25
minutes after its start time. -/
theorem rest_block_span_25 (tasks : List Task) (block : TimeBlock)
    (b : TimeBlock) (hb : b ∈ populate_time_block tasks block) :
    b.end_time = addMin b.start_time 25 ∧
    (b.name = some "Break (5 minutes)" ∨ b.name = some "Break (20 minutes)" ∨
      ∃ n, b.name = some ("Task - " ++ n)) := by
  have hinv := loopRun_inv block.end_time block.start_date C9Inv
    (C9Inv_step block.end_time block.start_date)
    (fuelFor tasks) (initState tasks block)
    (by intro b hb; simp [initState] at hb)
  exact hinv b hb

/-- Witness for C9: the first rest block of the C1 scenario, labelled
five minutes, spans 25. -/
theorem rest_block_span_25_witness :
    (TimeBlock.new_named "Break (5 minutes)" 565 590 0 0).end_time =
      addMin (TimeBlock.new_named "Break (5 minutes)" 565 590 0 0).start_time 25 ∧
    ((TimeBlock.new_named "Break (5 minutes)" 565 590 0 0).name =
        some "Break (5 minutes)" ∨
      (TimeBlock.new_named "Break (5 minutes)" 565 590 0 0).name =
        some "Break (20 minutes)" ∨
      ∃ n, (TimeBlock.new_named "Break (5 minutes)" 565 590 0 0).name =
        some ("Task - " ++ n)) :=
  rest_block_span_25 c1Tasks c1Window
    (TimeBlock.new_named "Break (5 minutes)" 565 590 0 0) (by decide)

theorem handle_task_events (q : List Task) (c : Nat) (d : Int)
    (out : List TimeBlock) (evs : List Ev) (ev : Ev) :
    (handle_task q c d out evs ev).2.2 = evs ∨
    (handle_task q c d out evs ev).2.2 = evs ++ [ev] := by
  rcases q.eq_nil_or_concat with h | ⟨l, a, h⟩ <;> subst h
  · left; rfl
  · right
    rw [List.concat_eq_append, handle_task_concat]

theorem C6Inv_rest (endT : Nat) (date : Int) (s : SchedState) (h : C6Inv s) :
    C6Inv (restPhase endT date s) := by
  obtain ⟨hmq, hlq, hev⟩ := h
  unfold restPhase
  split_ifs with h1 h2 h3 <;> refine ⟨hmq, hlq, ?_⟩ <;> intro e he
  · exact hev e he
  · rcases List.mem_append.mp he with h' | h'
    · exact hev e h'
    · right; simpa using h'
  · rcases List.mem_append.mp he with h' | h'
    · exact hev e h'
    · right; simpa using h'
  · exact hev e he

theorem C6Inv_step (endT : Nat) (date : Int) (s : SchedState) (h : C6Inv s) :
    C6Inv (schedIter endT date s) := by
  have hbr : C6Inv (branchPhase date s) := by
    obtain ⟨hmq, hlq, hev⟩ := h
    by_cases hh : s.high_priority_queue = []
    · rw [branchPhase_terminal date s hh hmq hlq]
      exact ⟨hmq, hlq, hev⟩
    · by_cases hf : 1 ≤ s.high_med_prio_tasks ∧ s.high_med_prio_tasks % 4 = 0 ∧
        s.forced_low_pri = false
      · rw [branchPhase_forced date s (Or.inl hh) hf]
        refine ⟨hmq, ?_, ?_⟩
        · simp [hlq, handle_task_nil]
        · simp only [hlq, handle_task_nil]
          exact hev
      · rw [branchPhase_high date s hh hf]
        refine ⟨hmq, hlq, ?_⟩
        rcases handle_task_events s.high_priority_queue s.cur_time date
          s.populated_time_block s.events Ev.workHigh with he' | he'
        · simp only [he']
          exact hev
        · simp only [he']
          intro e he
          rcases List.mem_append.mp he with h' | h'
          · exact hev e h'
          · left; simpa using h'
  exact C6Inv_rest endT date _ hbr

/-- C6 (amended): with only High-class tasks the scheduler never emits a
Medium- or Low-queue work block — every ghost event is a High work block
or a rest block.  However, the forced-injection branch still runs at
every 4th High/Medium allocation as a no-op on the empty Low queue,
advancing the clock 25 minutes without emitting any block, so the output
can contain clock gaps not covered by any block. -/
theorem only_high_events (tasks : List Task) (block : TimeBlock)
    (h : ∀ t ∈ tasks, get_task_priority t = PriorityClass.High) :
    ∀ e ∈ (runSched tasks block).events, e = Ev.workHigh ∨ e = Ev.rest := by
  have hmed : tasks.filter
      (fun t => decide (get_task_priority t = PriorityClass.Medium)) = [] := by
    rw [List.filter_eq_nil_iff]
    intro a ha
    simp [h a ha]
  have hlow : tasks.filter
      (fun t => decide (get_task_priority t = PriorityClass.Low)) = [] := by
    rw [List.filter_eq_nil_iff]
    intro a ha
    simp [h a ha]
  have hinit : C6Inv (initState tasks block) := by
    refine ⟨?_, ?_, ?_⟩
    · show get_priority_queue tasks PriorityClass.Medium = []
      rw [get_priority_queue_eq, hmed]
      rfl
    · show get_priority_queue tasks PriorityClass.Low = []
      rw [get_priority_queue_eq, hlow]
      rfl
    · intro e he
      simp [initState] at he
  have hfin := loopRun_inv block.end_time block.start_date C6Inv
    (C6Inv_step block.end_time block.start_date)
    (fuelFor tasks) (initState tasks block) hinit
  exact hfin.2.2

/-- Witness for C6: the events of the concrete only-High run are all
High work blocks or rests; applied to its first event. -/
theorem only_high_events_witness :
    Ev.workHigh = Ev.workHigh ∨ Ev.workHigh = Ev.rest :=
  only_high_events c6Tasks c6Window (by decide) Ev.workHigh (by decide)

/-- Counterexample to C6 as stated: an input with only High-class tasks
whose output is not gap-free — after the 4th High allocation the forced
Low injection runs as a no-op on the empty Low queue and advances the
clock 25 minutes with no emitted block, so one block starts 45 minutes
after its predecessor. -/
theorem only_high_gap :
    (∀ t ∈ c6Tasks, get_task_priority t = PriorityClass.High) ∧
    ¬ gapFree (populate_time_block c6Tasks c6Window) := by
  constructor
  · decide
  · unfold gapFree
    decide

theorem labelOf_do_work (t : Task) (d : Int) :
    labelOf (t.do_work d) = labelOf t := by
  unfold Task.do_work
  split_ifs <;> rfl

theorem has_work_remaining_do_work_nonpos (t : Task) (h : t.duration ≤ 0) :
    (t.do_work 25).has_work_remaining = false := by
  unfold Task.do_work Task.has_work_remaining
  rw [if_pos (by omega : t.duration < 25)]
  simp

theorem countName_append_ne (out : List TimeBlock) (b : TimeBlock) (l : String)
    (h : b.name ≠ some l) : countName (out ++ [b]) l = countName out l := by
  simp [countName, List.countP_append, h]

theorem countP_class_partition (tasks : List Task) (p : Task → Bool) :
    ((tasks.filter (fun t => decide (get_task_priority t = PriorityClass.High))).countP p) +
    ((tasks.filter (fun t => decide (get_task_priority t = PriorityClass.Medium))).countP p) +
    ((tasks.filter (fun t => decide (get_task_priority t = PriorityClass.Low))).countP p) =
    tasks.countP p := by
  induction tasks with
  | nil => rfl
  | cons t ts ih =>
    cases hcl : get_task_priority t <;>
      simp [List.filter_cons, hcl, List.countP_cons] <;> omega

theorem countQ_reverse (q : List Task) (l : String) :
    countQ q.reverse l = countQ q l := by
  simp [countQ, List.countP_eq_length_filter, List.filter_reverse]

theorem handle_count (q : List Task) (c : Nat) (d : Int) (out : List TimeBlock)
    (evs : List Ev) (ev : Ev) (l : String)
    (hdur : ∀ u ∈ q, labelOf u = l → u.duration ≤ 0) :
    countName (handle_task q c d out evs ev).2.1 l +
      countQ (handle_task q c d out evs ev).1 l =
      countName out l + countQ q l ∧
    (∀ u ∈ (handle_task q c d out evs ev).1, labelOf u = l → u.duration ≤ 0) := by
  rcases q.eq_nil_or_concat with hq | ⟨t0, a, hq⟩ <;> subst hq
  · exact ⟨rfl, hdur⟩
  · rw [List.concat_eq_append] at hdur ⊢
    rw [handle_task_concat]
    by_cases hl : labelOf a = l
    · have hda : a.duration ≤ 0 := hdur a (by simp) hl
      have hw : (a.do_work 25).has_work_remaining = false :=
        has_work_remaining_do_work_nonpos a hda
      constructor
      · simp only [hw, Bool.false_eq_true, if_false]
        simp [countName, countQ, List.countP_append, List.countP_cons,
          create_pomodoro_block, TimeBlock.new_named, labelOf, hl.symm ▸ hl]
        rw [show ("Task - " ++ a.name) = labelOf a from rfl, hl]
        simp
        omega
      · simp only [hw, Bool.false_eq_true, if_false]
        intro u hu hlu
        exact hdur u (by simp [hu]) hlu
    · have hbn : (create_pomodoro_block a c d).name ≠ some l := by
        show some ("Task - " ++ a.name) ≠ some l
        simp only [ne_eq, Option.some.injEq]
        exact fun hx => hl hx
      constructor
      · dsimp only
        rw [countName_append_ne _ _ _ hbn]
        by_cases hw : (a.do_work 25).has_work_remaining = true
        · simp only [hw, if_true]
          have : labelOf (a.do_work 25) = labelOf a := labelOf_do_work a 25
          simp [countQ, List.countP_cons, List.countP_append, this, hl]
        · simp only [Bool.not_eq_true] at hw
          simp only [hw, Bool.false_eq_true, if_false]
          simp [countQ, List.countP_append, List.countP_cons, hl]
      · by_cases hw : (a.do_work 25).has_work_remaining = true
        · simp only [hw, if_true]
          intro u hu hlu
          rcases List.mem_cons.mp hu with hu' | hu'
          · exfalso
            rw [hu'] at hlu
            rw [labelOf_do_work a 25] at hlu
            exact hl hlu
          · exact hdur u (by simp [hu']) hlu
        · simp only [Bool.not_eq_true] at hw
          simp only [hw, Bool.false_eq_true, if_false]
          intro u hu hlu
          exact hdur u (by simp [hu]) hlu

theorem C3Inv_rest (l : String) (K : Nat) (h5 : l ≠ "Break (5 minutes)")
    (h20 : l ≠ "Break (20 minutes)") (endT : Nat) (date : Int)
    (s : SchedState) (h : C3Inv l K s) : C3Inv l K (restPhase endT date s) := by
  obtain ⟨hcount, hdur⟩ := h
  unfold restPhase
  split_ifs with h1 h2 h3 <;> refine ⟨?_, hdur⟩
  · exact hcount
  · have hne : (create_pomodoro_rest s.cur_time date 20).name ≠ some l := by
      show some ("Break (" ++ toString (20 : Nat) ++ " minutes)") ≠ some l
      rw [show ("Break (" ++ toString (20 : Nat) ++ " minutes)") =
        "Break (20 minutes)" from by decide]
      simp only [ne_eq, Option.some.injEq]
      exact fun hx => h20 hx.symm
    dsimp only
    rw [countName_append_ne _ _ _ hne]
    exact hcount
  · have hne : (create_pomodoro_rest s.cur_time date 5).name ≠ some l := by
      show some ("Break (" ++ toString (5 : Nat) ++ " minutes)") ≠ some l
      rw [show ("Break (" ++ toString (5 : Nat) ++ " minutes)") =
        "Break (5 minutes)" from by decide]
      simp only [ne_eq, Option.some.injEq]
      exact fun hx => h5 hx.symm
    dsimp only
    rw [countName_append_ne _ _ _ hne]
    exact hcount
  · exact hcount

theorem C3Inv_step (l : String) (K : Nat) (h5 : l ≠ "Break (5 minutes)")
    (h20 : l ≠ "Break (20 minutes)") (endT : Nat) (date : Int)
    (s : SchedState) (h : C3Inv l K s) : C3Inv l K (schedIter endT date s) := by
  have hbr : C3Inv l K (branchPhase date s) := by
    obtain ⟨hcount, hdur⟩ := h
    by_cases h1 : s.high_priority_queue ≠ [] ∨ s.med_priority_queue ≠ []
    · by_cases h2 : 1 ≤ s.high_med_prio_tasks ∧ s.high_med_prio_tasks % 4 = 0 ∧
        s.forced_low_pri = false
      · rw [branchPhase_forced date s h1 h2]
        obtain ⟨hc', hd'⟩ := handle_count s.low_priority_queue s.cur_time date
          s.populated_time_block s.events Ev.workLow l
          (fun u hu hlu => hdur u (Or.inr (Or.inr hu)) hlu)
        refine ⟨?_, ?_⟩
        · dsimp only
          omega
        · intro u hu hlu
          rcases hu with hu | hu | hu
          · exact hdur u (Or.inl hu) hlu
          · exact hdur u (Or.inr (Or.inl hu)) hlu
          · exact hd' u hu hlu
      · by_cases h3 : s.high_priority_queue ≠ []
        · rw [branchPhase_high date s h3 h2]
          obtain ⟨hc', hd'⟩ := handle_count s.high_priority_queue s.cur_time date
            s.populated_time_block s.events Ev.workHigh l
            (fun u hu hlu => hdur u (Or.inl hu) hlu)
          refine ⟨?_, ?_⟩
          · dsimp only
            omega
          · intro u hu hlu
            rcases hu with hu | hu | hu
            · exact hd' u hu hlu
            · exact hdur u (Or.inr (Or.inl hu)) hlu
            · exact hdur u (Or.inr (Or.inr hu)) hlu
        · have h3' : s.high_priority_queue = [] := not_not.mp h3
          have h4 : s.med_priority_queue ≠ [] := by tauto
          rw [branchPhase_med date s h3' h4 h2]
          obtain ⟨hc', hd'⟩ := handle_count s.med_priority_queue s.cur_time date
            s.populated_time_block s.events Ev.workMed l
            (fun u hu hlu => hdur u (Or.inr (Or.inl hu)) hlu)
          refine ⟨?_, ?_⟩
          · dsimp only
            omega
          · intro u hu hlu
            rcases hu with hu | hu | hu
            · exact hdur u (Or.inl hu) hlu
            · exact hd' u hu hlu
            · exact hdur u (Or.inr (Or.inr hu)) hlu
    · push_neg at h1
      obtain ⟨hh, hm⟩ := h1
      by_cases hl3 : s.low_priority_queue = []
      · rw [branchPhase_terminal date s hh hm hl3]
        exact ⟨hcount, hdur⟩
      · rw [branchPhase_lowOnly date s hh hm hl3]
        obtain ⟨hc', hd'⟩ := handle_count s.low_priority_queue s.cur_time date
          s.populated_time_block s.events Ev.workLow l
          (fun u hu hlu => hdur u (Or.inr (Or.inr hu)) hlu)
        refine ⟨?_, ?_⟩
        · dsimp only
          omega
        · intro u hu hlu
          rcases hu with hu | hu | hu
          · exact hdur u (Or.inl hu) hlu
          · exact hdur u (Or.inr (Or.inl hu)) hlu
          · exact hd' u hu hlu
  exact C3Inv_rest l K h5 h20 endT date _ hbr

theorem C3Inv_init (tasks : List Task) (block : TimeBlock) (l : String)
    (hzero : ∀ u ∈ tasks, labelOf u = l → u.duration ≤ 0) :
    C3Inv l (countLabel tasks l) (initState tasks block) := by
  constructor
  · show countName [] l +
      countQ (get_priority_queue tasks PriorityClass.High) l +
      countQ (get_priority_queue tasks PriorityClass.Medium) l +
      countQ (get_priority_queue tasks PriorityClass.Low) l ≤ countLabel tasks l
    rw [get_priority_queue_eq, get_priority_queue_eq, get_priority_queue_eq,
      countQ_reverse, countQ_reverse, countQ_reverse]
    rw [show countLabel tasks l = tasks.countP
      (fun u => decide (labelOf u = l)) from rfl]
    rw [← countP_class_partition tasks (fun u => decide (labelOf u = l))]
    simp [countName, countQ]
  · intro u hu hlu
    refine hzero u ?_ hlu
    have hmem : u ∈ get_priority_queue tasks PriorityClass.High ∨
        u ∈ get_priority_queue tasks PriorityClass.Medium ∨
        u ∈ get_priority_queue tasks PriorityClass.Low := hu
    rcases hmem with hm | hm | hm <;>
    · rw [get_priority_queue_eq] at hm
      exact (List.mem_filter.mp (List.mem_reverse.mp hm)).1

/-- C3 (amended): a task whose remaining duration is zero (or negative)
produces AT MOST one work block bearing its label, not zero — the
allocator emits a block for a popped task before checking whether any
work remains, and only the re-queueing is suppressed.  Stated for any
label all of whose carriers have non-positive duration: the output never
contains more blocks with that label than the input has tasks with it. -/
theorem zero_duration_block_bound (tasks : List Task) (block : TimeBlock)
    (l : String) (hzero : ∀ u ∈ tasks, labelOf u = l → u.duration ≤ 0)
    (h5 : l ≠ "Break (5 minutes)") (h20 : l ≠ "Break (20 minutes)") :
    countName (populate_time_block tasks block) l ≤ countLabel tasks l := by
  have hfin := loopRun_inv block.end_time block.start_date
    (C3Inv l (countLabel tasks l))
    (C3Inv_step l (countLabel tasks l) h5 h20 block.end_time block.start_date)
    (fuelFor tasks) (initState tasks block)
    (C3Inv_init tasks block l hzero)
  have h1 := hfin.1
  have h2 : populate_time_block tasks block =
      (loopRun block.end_time block.start_date (fuelFor tasks)
        (initState tasks block)).populated_time_block := rfl
  rw [h2]
  omega

/-- Witness for C3's amended bound on the concrete zero-duration task. -/
theorem zero_duration_block_bound_witness :
    countName (populate_time_block c3Tasks c3Window) "Task - Z" ≤
      countLabel c3Tasks "Task - Z" :=
  zero_duration_block_bound c3Tasks c3Window "Task - Z"
    (by decide) (by decide) (by decide)

/-- Counterexample to C3 as stated: a task with zero initial duration
produces exactly ONE work block labelled with its name, not zero. -/
theorem zero_duration_block_emitted :
    countName (populate_time_block c3Tasks c3Window) "Task - Z" = 1 ∧
    countName (populate_time_block c3Tasks c3Window) "Task - Z" ≠ 0 := by
  constructor <;> decide

theorem handle_task_events_concat (l0 : List Task) (a : Task) (c : Nat)
    (d : Int) (out : List TimeBlock) (evs : List Ev) (ev : Ev) :
    (handle_task (l0 ++ [a]) c d out evs ev).2.2 = evs ++ [ev] := by
  rw [handle_task_concat]

theorem expectedTail_succ (hm : Nat) (fl : Bool)
    (hflc : fl = true → hm % 4 = 0 ∧ 1 ≤ hm)
    (hcond : ¬(1 ≤ hm ∧ hm % 4 = 0 ∧ fl = false)) :
    expectedTail hm fl + 1 = expectedTail (hm + 1) false ∧
    expectedTail (hm + 1) false ≤ 4 := by
  cases fl with
  | true =>
    obtain ⟨h4, h1⟩ := hflc rfl
    rw [show expectedTail hm true = 0 from rfl]
    rw [show expectedTail (hm + 1) false = hm % 4 + 1 from by
      simp [expectedTail]]
    omega
  | false =>
    have hcond' : ¬(1 ≤ hm ∧ hm % 4 = 0) := by simpa using hcond
    rcases Nat.eq_zero_or_pos hm with h0 | hpos
    · subst h0
      norm_num [expectedTail]
    · by_cases hmod : hm % 4 = 0
      · exact absurd ⟨hpos, hmod⟩ hcond'
      · simp only [expectedTail, Bool.false_eq_true, if_false]
        rw [if_neg (by omega : ¬hm = 0), if_neg (by omega : ¬hm + 1 = 0)]
        omega

theorem expectedTail_le (hm : Nat) (fl : Bool) : expectedTail hm fl ≤ 4 := by
  unfold expectedTail
  split_ifs <;> omega

theorem C2Inv_hm_append (s snew : SchedState) (e : Ev)
    (hwe : workEv snew = workEv s ++ [e]) (hHM : isHM e = true)
    (hfl' : snew.forced_low_pri = false)
    (hhm' : snew.high_med_prio_tasks = s.high_med_prio_tasks + 1)
    (hlq' : snew.low_priority_queue = s.low_priority_queue)
    (houter : s.high_priority_queue ≠ [] ∨ s.med_priority_queue ≠ [])
    (hcond : ¬(1 ≤ s.high_med_prio_tasks ∧ s.high_med_prio_tasks % 4 = 0 ∧
      s.forced_low_pri = false))
    (h : C2Inv s) : C2Inv snew := by
  obtain ⟨hfl, hne, hnil⟩ := h
  have hsucc := expectedTail_succ s.high_med_prio_tasks s.forced_low_pri hfl hcond
  have henl : e ≠ Ev.workLow := by
    intro hcontra
    rw [hcontra] at hHM
    simp [isHM] at hHM
  refine ⟨?_, ?_, ?_⟩
  · intro hf
    rw [hfl'] at hf
    simp at hf
  · intro hlqne
    rw [hlq'] at hlqne
    obtain ⟨htail, heq, hnoFive⟩ := hne hlqne
    have htl : tailHM (workEv snew) = tailHM (workEv s) + 1 := by
      rw [hwe, tailHM_append, if_pos hHM]
    have hteq : tailHM (workEv s) = expectedTail s.high_med_prio_tasks
        s.forced_low_pri := heq houter
    refine ⟨?_, ?_, ?_⟩
    · rw [htl, hteq]
      omega
    · intro _
      rw [htl, hteq, hhm', hfl']
      exact hsucc.1
    · rw [hwe]
      refine noFive_append _ _ hnoFive ?_
      rw [tailHM_append, if_pos hHM, hteq]
      omega
  · intro hlq0
    rw [hlq'] at hlq0
    rw [hwe]
    exact lowAfterBound_append_nonlow _ _ (hnil hlq0) henl

theorem workEv_rest (endT : Nat) (date : Int) (x : SchedState) :
    workEv (restPhase endT date x) = workEv x := by
  unfold restPhase
  split_ifs <;> simp [workEv, isWork]

theorem C2Inv_rest (endT : Nat) (date : Int) (x : SchedState)
    (h : C2Inv x) : C2Inv (restPhase endT date x) := by
  obtain ⟨hfl, hne, hnil⟩ := h
  have hwe := workEv_rest endT date x
  unfold restPhase at hwe ⊢
  split_ifs at hwe ⊢ <;> exact ⟨hfl, by rw [hwe]; exact hne, by rw [hwe]; exact hnil⟩

theorem C2Inv_branch (date : Int) (s : SchedState) (h : C2Inv s) :
    C2Inv (branchPhase date s) := by
  obtain ⟨hfl, hne, hnil⟩ := h
  by_cases h1 : s.high_priority_queue ≠ [] ∨ s.med_priority_queue ≠ []
  · by_cases h2 : 1 ≤ s.high_med_prio_tasks ∧ s.high_med_prio_tasks % 4 = 0 ∧
      s.forced_low_pri = false
    · rw [branchPhase_forced date s h1 h2]
      rcases s.low_priority_queue.eq_nil_or_concat with hlq | ⟨l0, a, hlq⟩
      · refine ⟨?_, ?_, ?_⟩
        · intro _
          exact ⟨h2.2.1, h2.1⟩
        · intro hlqne
          exfalso
          apply hlqne
          show (handle_task s.low_priority_queue s.cur_time date
            s.populated_time_block s.events Ev.workLow).1 = []
          rw [hlq]
          rfl
        · intro _
          have hwe : workEv { s with
              low_priority_queue := (handle_task s.low_priority_queue s.cur_time
                date s.populated_time_block s.events Ev.workLow).1,
              populated_time_block := (handle_task s.low_priority_queue s.cur_time
                date s.populated_time_block s.events Ev.workLow).2.1,
              events := (handle_task s.low_priority_queue s.cur_time
                date s.populated_time_block s.events Ev.workLow).2.2,
              forced_low_pri := true,
              cur_time := addMin s.cur_time 25 } = workEv s := by
            simp [workEv, hlq, handle_task_nil]
          rw [hwe]
          exact hnil hlq
      · rw [List.concat_eq_append] at hlq
        have hlqne : s.low_priority_queue ≠ [] := by
          rw [hlq]
          simp
        obtain ⟨htail, heq, hnoFive⟩ := hne hlqne
        have hevs : (handle_task s.low_priority_queue s.cur_time date
            s.populated_time_block s.events Ev.workLow).2.2 =
            s.events ++ [Ev.workLow] := by
          rw [hlq, handle_task_events_concat]
        have hwe : workEv { s with
            low_priority_queue := (handle_task s.low_priority_queue s.cur_time
              date s.populated_time_block s.events Ev.workLow).1,
            populated_time_block := (handle_task s.low_priority_queue s.cur_time
              date s.populated_time_block s.events Ev.workLow).2.1,
            events := (handle_task s.low_priority_queue s.cur_time
              date s.populated_time_block s.events Ev.workLow).2.2,
            forced_low_pri := true,
            cur_time := addMin s.cur_time 25 } = workEv s ++ [Ev.workLow] := by
          simp only [workEv]
          show ((handle_task s.low_priority_queue s.cur_time date
            s.populated_time_block s.events Ev.workLow).2.2).filter isWork = _
          rw [hevs, List.filter_append]
          rfl
        refine ⟨?_, ?_, ?_⟩
        · intro _
          exact ⟨h2.2.1, h2.1⟩
        · intro _
          refine ⟨?_, ?_, ?_⟩
          · rw [hwe, tailHM_append]
            simp [isHM]
          · intro _
            rw [hwe, tailHM_append]
            simp [isHM, expectedTail]
          · rw [hwe]
            refine noFive_append _ _ hnoFive ?_
            rw [tailHM_append]
            simp [isHM]
        · intro _
          rw [hwe]
          exact lowAfterBound_append_of_noFive _ _ hnoFive
    · by_cases h3 : s.high_priority_queue ≠ []
      · rw [branchPhase_high date s h3 h2]
        rcases s.high_priority_queue.eq_nil_or_concat with hhq | ⟨l0, a, hhq⟩
        · exact absurd hhq h3
        · rw [List.concat_eq_append] at hhq
          refine C2Inv_hm_append s _ Ev.workHigh ?_ rfl rfl rfl rfl h1 h2
            ⟨hfl, hne, hnil⟩
          simp only [workEv]
          show ((handle_task s.high_priority_queue s.cur_time date
            s.populated_time_block s.events Ev.workHigh).2.2).filter isWork = _
          rw [hhq, handle_task_events_concat, List.filter_append]
          rfl
      · have h3' : s.high_priority_queue = [] := not_not.mp h3
        have h4 : s.med_priority_queue ≠ [] := by tauto
        rw [branchPhase_med date s h3' h4 h2]
        rcases s.med_priority_queue.eq_nil_or_concat with hmq | ⟨l0, a, hmq⟩
        · exact absurd hmq h4
        · rw [List.concat_eq_append] at hmq
          refine C2Inv_hm_append s _ Ev.workMed ?_ rfl rfl rfl rfl h1 h2
            ⟨hfl, hne, hnil⟩
          simp only [workEv]
          show ((handle_task s.med_priority_queue s.cur_time date
            s.populated_time_block s.events Ev.workMed).2.2).filter isWork = _
          rw [hmq, handle_task_events_concat, List.filter_append]
          rfl
  · push_neg at h1
    obtain ⟨hh, hm⟩ := h1
    by_cases hl0 : s.low_priority_queue = []
    · rw [branchPhase_terminal date s hh hm hl0]
      exact ⟨hfl, hne, hnil⟩
    · rw [branchPhase_lowOnly date s hh hm hl0]
      rcases s.low_priority_queue.eq_nil_or_concat with hlq | ⟨l0, a, hlq⟩
      · exact absurd hlq hl0
      · rw [List.concat_eq_append] at hlq
        obtain ⟨htail, heq, hnoFive⟩ := hne hl0
        have hwe : workEv { s with
            low_priority_queue := (handle_task s.low_priority_queue s.cur_time
              date s.populated_time_block s.events Ev.workLow).1,
            populated_time_block := (handle_task s.low_priority_queue s.cur_time
              date s.populated_time_block s.events Ev.workLow).2.1,
            events := (handle_task s.low_priority_queue s.cur_time
              date s.populated_time_block s.events Ev.workLow).2.2,
            cur_time := addMin s.cur_time 25 } = workEv s ++ [Ev.workLow] := by
          simp only [workEv]
          show ((handle_task s.low_priority_queue s.cur_time date
            s.populated_time_block s.events Ev.workLow).2.2).filter isWork = _
          rw [hlq, handle_task_events_concat, List.filter_append]
          rfl
        refine ⟨hfl, ?_, ?_⟩
        · intro _
          refine ⟨?_, ?_, ?_⟩
          · rw [hwe, tailHM_append]
            simp [isHM]
          · intro hg
            exfalso
            rcases hg with hg | hg
            · exact hg hh
            · exact hg hm
          · rw [hwe]
            refine noFive_append _ _ hnoFive ?_
            rw [tailHM_append]
            simp [isHM]
        · intro _
          rw [hwe]
          exact lowAfterBound_append_of_noFive _ _ hnoFive

theorem C2Inv_step (endT : Nat) (date : Int) (s : SchedState) (h : C2Inv s) :
    C2Inv (schedIter endT date s) :=
  C2Inv_rest endT date _ (C2Inv_branch date s h)

/-- C2 (amended): in every run, any consecutive block of High/Medium
work allocations that is still followed by a Low-class allocation has
length at most 4 (not 3): the forced injection fires after every 4th
High/Medium allocation, so up to 4 consecutive High/Medium work blocks
occur before a Low-class block while Low tasks remain. -/
theorem anti_starvation_bound (tasks : List Task) (block : TimeBlock)
    (pre run post : List Ev)
    (heq : workEv (runSched tasks block) = pre ++ run ++ post)
    (hall : ∀ e ∈ run, isHM e = true) (hlow : Ev.workLow ∈ post) :
    run.length ≤ 4 := by
  have hinit : C2Inv (initState tasks block) := by
    refine ⟨?_, ?_, ?_⟩
    · intro hf
      simp [initState] at hf
    · intro _
      refine ⟨?_, ?_, ?_⟩
      · show tailHM (List.filter isWork []) ≤ 4
        simp [tailHM]
      · intro _
        show tailHM (List.filter isWork []) = expectedTail 0 false
        simp [tailHM, expectedTail]
      · show noFive (List.filter isWork [])
        exact noFive_nil
    · intro _
      show lowAfterBound 4 (List.filter isWork [])
      exact lowAfterBound_nil
  have hfin := loopRun_inv block.end_time block.start_date C2Inv
    (C2Inv_step block.end_time block.start_date)
    (fuelFor tasks) (initState tasks block) hinit
  obtain ⟨-, hne, hnil⟩ := hfin
  by_cases hlqf : (loopRun block.end_time block.start_date (fuelFor tasks)
      (initState tasks block)).low_priority_queue = []
  · exact hnil hlqf pre run post heq hall hlow
  · exact lowAfterBound_of_noFive _ ((hne hlqf).2.2) pre run post heq hall hlow

/-- Witness for C2's amended bound on the concrete
five-Medium-plus-one-Low run, at the run of four Medium allocations that
precedes the forced Low block. -/
theorem anti_starvation_bound_witness :
    ([Ev.workMed, Ev.workMed, Ev.workMed, Ev.workMed] : List Ev).length ≤ 4 :=
  anti_starvation_bound c2Tasks c2Window []
    [Ev.workMed, Ev.workMed, Ev.workMed, Ev.workMed] [Ev.workLow, Ev.workMed]
    (by decide) (by decide) (by decide)

/-- Counterexample to C2 as stated: on the five-Medium-one-Low input,
four consecutive High/Medium work blocks occur before the first
Low-class block, so "no more than 3 consecutive High/Medium work blocks
before a Low-class block" fails. -/
theorem anti_starvation_three_fails :
    ¬ lowAfterBound 3 (workEv (runSched c2Tasks c2Window)) := by
  intro h
  have h4 := h [] [Ev.workMed, Ev.workMed, Ev.workMed, Ev.workMed]
    [Ev.workLow, Ev.workMed] (by decide) (by decide) (by decide)
  simp at h4

theorem taskUnits_pos (t : Task) : 1 ≤ taskUnits t := by
  unfold taskUnits
  split_ifs <;> omega

theorem do_work_duration_ge (a : Task) (hw : (a.do_work 25).has_work_remaining = true) :
    (26 : Int) ≤ a.duration ∧ (a.do_work 25).duration = a.duration - 25 := by
  have hw' : 0 < (a.do_work 25).duration := by
    simpa [Task.has_work_remaining] using hw
  unfold Task.do_work at hw' ⊢
  split_ifs at hw' ⊢ with h
  · simp at hw'
  · constructor
    · have : 0 < a.duration - 25 := hw'
      omega
    · rfl

theorem do_work_duration_done (a : Task)
    (hw : (a.do_work 25).has_work_remaining = false) : a.duration ≤ 25 := by
  have hw' : ¬ 0 < (a.do_work 25).duration := by
    simpa [Task.has_work_remaining] using hw
  unfold Task.do_work at hw'
  split_ifs at hw' with h
  · omega
  · simp at hw'
    omega

theorem queueUnits_cons (a : Task) (q : List Task) :
    queueUnits (a :: q) = taskUnits a + queueUnits q := by
  simp [queueUnits]

theorem queueUnits_concat (q : List Task) (a : Task) :
    queueUnits (q ++ [a]) = queueUnits q + taskUnits a := by
  simp [queueUnits]

theorem handle_units (q : List Task) (c : Nat) (d : Int)
    (out : List TimeBlock) (evs : List Ev) (ev : Ev) (hq : q ≠ []) :
    queueUnits (handle_task q c d out evs ev).1 + 1 = queueUnits q := by
  rcases q.eq_nil_or_concat with h | ⟨l0, a, h⟩
  · exact absurd h hq
  · subst h
    rw [List.concat_eq_append]
    rw [handle_task_concat, queueUnits_concat]
    by_cases hw : (a.do_work 25).has_work_remaining = true
    · rw [if_pos hw, queueUnits_cons]
      obtain ⟨hge, hdur⟩ := do_work_duration_ge a hw
      have hua : taskUnits a = (a.duration - 1).toNat / 25 + 1 := by
        unfold taskUnits
        rw [if_neg (by omega)]
      have hua' : taskUnits (a.do_work 25) = (a.duration - 26).toNat / 25 + 1 := by
        unfold taskUnits
        rw [hdur, if_neg (by omega)]
        congr 2
        omega
      rw [hua, hua']
      have h26 : (a.duration - 1).toNat = (a.duration - 26).toNat + 25 := by
        omega
      rw [h26, Nat.add_div_right _ (by norm_num : 0 < 25)]
      omega
    · simp only [Bool.not_eq_true] at hw
      rw [if_neg (by simp [hw])]
      dsimp only
      have h25 := do_work_duration_done a hw
      have hua : taskUnits a = 1 := by
        unfold taskUnits
        split_ifs with h0
        · rfl
        · have : (a.duration - 1).toNat ≤ 24 := by omega
          omega
      omega

theorem stateWork_rest (endT : Nat) (date : Int) (x : SchedState) :
    stateWork (restPhase endT date x) = stateWork x := by
  unfold restPhase stateWork
  split_ifs <;> rfl

theorem restPhase_fl (endT : Nat) (date : Int) (x : SchedState) :
    (restPhase endT date x).forced_low_pri = x.forced_low_pri := by
  unfold restPhase
  split_ifs <;> rfl

theorem restPhase_full_mono (endT : Nat) (date : Int) (x : SchedState)
    (h : x.time_block_full = true) :
    (restPhase endT date x).time_block_full = true := by
  unfold restPhase
  split_ifs with h1 h2 h3
  · rfl
  · rw [h2] at h; cases h
  · rw [h2] at h; cases h
  · exact h

theorem stateMeasure_rest (endT : Nat) (date : Int) (x : SchedState) :
    stateMeasure (restPhase endT date x) = stateMeasure x := by
  unfold stateMeasure
  rw [stateWork_rest, restPhase_fl]

theorem stateMeasure_iter (endT : Nat) (date : Int) (s : SchedState) :
    stateMeasure (schedIter endT date s) = stateMeasure (branchPhase date s) := by
  unfold schedIter
  rw [stateMeasure_rest]
  rfl

theorem stateWork_iter (endT : Nat) (date : Int) (s : SchedState) :
    stateWork (schedIter endT date s) = stateWork (branchPhase date s) := by
  unfold schedIter
  rw [stateWork_rest]
  rfl

theorem branch_work_dec_else (date : Int) (s : SchedState)
    (h1 : s.high_priority_queue ≠ [] ∨ s.med_priority_queue ≠ [])
    (h2 : ¬(1 ≤ s.high_med_prio_tasks ∧ s.high_med_prio_tasks % 4 = 0 ∧
      s.forced_low_pri = false)) :
    stateWork (branchPhase date s) + 1 = stateWork s ∧
    (branchPhase date s).forced_low_pri = false := by
  by_cases h3 : s.high_priority_queue ≠ []
  · rw [branchPhase_high date s h3 h2]
    have hu := handle_units s.high_priority_queue s.cur_time date
      s.populated_time_block s.events Ev.workHigh h3
    constructor
    · show queueUnits (handle_task s.high_priority_queue s.cur_time date
        s.populated_time_block s.events Ev.workHigh).1 +
        queueUnits s.med_priority_queue + queueUnits s.low_priority_queue + 1 =
        queueUnits s.high_priority_queue + queueUnits s.med_priority_queue +
        queueUnits s.low_priority_queue
      omega
    · rfl
  · have h3' : s.high_priority_queue = [] := not_not.mp h3
    have h4 : s.med_priority_queue ≠ [] := by tauto
    rw [branchPhase_med date s h3' h4 h2]
    have hu := handle_units s.med_priority_queue s.cur_time date
      s.populated_time_block s.events Ev.workMed h4
    constructor
    · show queueUnits s.high_priority_queue +
        queueUnits (handle_task s.med_priority_queue s.cur_time date
          s.populated_time_block s.events Ev.workMed).1 +
        queueUnits s.low_priority_queue + 1 =
        queueUnits s.high_priority_queue + queueUnits s.med_priority_queue +
        queueUnits s.low_priority_queue
      omega
    · rfl

theorem branch_work_dec_low (date : Int) (s : SchedState)
    (hh : s.high_priority_queue = []) (hm : s.med_priority_queue = [])
    (hl : s.low_priority_queue ≠ []) :
    stateWork (branchPhase date s) + 1 = stateWork s := by
  rw [branchPhase_lowOnly date s hh hm hl]
  have hu := handle_units s.low_priority_queue s.cur_time date
    s.populated_time_block s.events Ev.workLow hl
  show queueUnits s.high_priority_queue + queueUnits s.med_priority_queue +
      queueUnits (handle_task s.low_priority_queue s.cur_time date
        s.populated_time_block s.events Ev.workLow).1 + 1 =
    queueUnits s.high_priority_queue + queueUnits s.med_priority_queue +
      queueUnits s.low_priority_queue
  omega

theorem schedIter_progress (endT : Nat) (date : Int) (s : SchedState)
    (_hf : s.time_block_full = false) :
    (schedIter endT date s).time_block_full = true ∨
    stateMeasure (schedIter endT date s) < stateMeasure s := by
  by_cases h1 : s.high_priority_queue ≠ [] ∨ s.med_priority_queue ≠ []
  · right
    rw [stateMeasure_iter]
    by_cases h2 : 1 ≤ s.high_med_prio_tasks ∧ s.high_med_prio_tasks % 4 = 0 ∧
      s.forced_low_pri = false
    · rw [branchPhase_forced date s h1 h2]
      unfold stateMeasure stateWork
      rcases s.low_priority_queue.eq_nil_or_concat with hlq | ⟨l0, a, hlq⟩
      · have hlqu : queueUnits (handle_task s.low_priority_queue s.cur_time date
            s.populated_time_block s.events Ev.workLow).1 =
            queueUnits s.low_priority_queue := by
          rw [hlq]
          rfl
        dsimp only
        rw [hlqu, h2.2.2]
        simp
      · have hlne : s.low_priority_queue ≠ [] := by
          rw [hlq]
          simp
        have hu := handle_units s.low_priority_queue s.cur_time date
          s.populated_time_block s.events Ev.workLow hlne
        dsimp only
        rw [h2.2.2]
        simp only [if_true, Bool.true_eq_false, if_false]
        omega
    · obtain ⟨hdec, hfl'⟩ := branch_work_dec_else date s h1 h2
      unfold stateMeasure
      rw [hfl']
      cases hflo : s.forced_low_pri <;> simp <;> omega
  · push_neg at h1
    obtain ⟨hh, hm⟩ := h1
    by_cases hl : s.low_priority_queue = []
    · left
      unfold schedIter
      apply restPhase_full_mono
      show (tickPhase (branchPhase date s)).time_block_full = true
      rw [branchPhase_terminal date s hh hm hl]
      rfl
    · right
      rw [stateMeasure_iter]
      have hdec := branch_work_dec_low date s hh hm hl
      unfold stateMeasure
      have hfl' : (branchPhase date s).forced_low_pri = s.forced_low_pri := by
        rw [branchPhase_lowOnly date s hh hm hl]
      rw [hfl']
      omega

theorem loopRun_terminates (endT : Nat) (date : Int) :
    ∀ (fuel : Nat) (s : SchedState), stateMeasure s ≤ fuel →
      (loopRun endT date fuel s).time_block_full = true := by
  intro fuel
  induction fuel with
  | zero =>
    intro s h
    exfalso
    unfold stateMeasure at h
    split_ifs at h <;> omega
  | succ n ih =>
    intro s h
    by_cases hf : s.time_block_full = true
    · simp [loopRun, hf]
    · have hf' : s.time_block_full = false := by simpa using hf
      rcases schedIter_progress endT date s hf' with hdone | hlt
      · show (loopRun endT date (n + 1) s).time_block_full = true
        rw [show loopRun endT date (n + 1) s =
          loopRun endT date n (schedIter endT date s) from by simp [loopRun, hf]]
        rw [loopRun_of_full endT date n _ hdone]
        exact hdone
      · rw [show loopRun endT date (n + 1) s =
          loopRun endT date n (schedIter endT date s) from by simp [loopRun, hf]]
        exact ih _ (by omega)

theorem queueUnits_reverse (q : List Task) :
    queueUnits q.reverse = queueUnits q := by
  simp [queueUnits, List.map_reverse, List.sum_reverse]

theorem units_class_partition (tasks : List Task) :
    queueUnits (tasks.filter
      (fun t => decide (get_task_priority t = PriorityClass.High))) +
    queueUnits (tasks.filter
      (fun t => decide (get_task_priority t = PriorityClass.Medium))) +
    queueUnits (tasks.filter
      (fun t => decide (get_task_priority t = PriorityClass.Low))) =
    (tasks.map taskUnits).sum := by
  induction tasks with
  | nil => rfl
  | cons t ts ih =>
    cases hcl : get_task_priority t <;>
      simp [List.filter_cons, hcl, queueUnits] at ih ⊢ <;> omega

theorem stateMeasure_init (tasks : List Task) (block : TimeBlock) :
    stateMeasure (initState tasks block) ≤ fuelFor tasks := by
  unfold stateMeasure fuelFor
  have hw : stateWork (initState tasks block) = (tasks.map taskUnits).sum := by
    show queueUnits (get_priority_queue tasks PriorityClass.High) +
      queueUnits (get_priority_queue tasks PriorityClass.Medium) +
      queueUnits (get_priority_queue tasks PriorityClass.Low) =
      (tasks.map taskUnits).sum
    rw [get_priority_queue_eq, get_priority_queue_eq, get_priority_queue_eq,
      queueUnits_reverse, queueUnits_reverse, queueUnits_reverse]
    exact units_class_partition tasks
  rw [hw]
  have : (initState tasks block).forced_low_pri = false := rfl
  rw [this]
  simp

/-- C10: for every finite task list and every bounding window (including
ones never reached because the time-of-day clock wraps), the scheduling
loop reaches its exit flag within the computed fuel, so
`populate_time_block` terminates with a finite block list; moreover every
non-forced allocation (High/Medium, or Low-only) strictly decreases the
total remaining work units across the queues, a forced injection cannot
fire on two consecutive iterations, and when all three queues are empty
the iteration sets the terminal flag. -/
theorem scheduler_terminates :
    (∀ (tasks : List Task) (block : TimeBlock),
      (runSched tasks block).time_block_full = true) ∧
    (∀ (endT : Nat) (date : Int) (s : SchedState),
      (s.high_priority_queue ≠ [] ∨ s.med_priority_queue ≠ []) →
      ¬ forcedCond s → stateWork (schedIter endT date s) < stateWork s) ∧
    (∀ (endT : Nat) (date : Int) (s : SchedState),
      s.high_priority_queue = [] → s.med_priority_queue = [] →
      s.low_priority_queue ≠ [] →
      stateWork (schedIter endT date s) < stateWork s) ∧
    (∀ (endT : Nat) (date : Int) (s : SchedState),
      forcedCond s → ¬ forcedCond (schedIter endT date s)) ∧
    (∀ (endT : Nat) (date : Int) (s : SchedState),
      s.high_priority_queue = [] → s.med_priority_queue = [] →
      s.low_priority_queue = [] → s.time_block_full = false →
      (schedIter endT date s).time_block_full = true) := by
  refine ⟨?_, ?_, ?_, ?_, ?_⟩
  · intro tasks block
    exact loopRun_terminates block.end_time block.start_date (fuelFor tasks)
      (initState tasks block) (stateMeasure_init tasks block)
  · intro endT date s h1 h2
    have h2' : ¬(1 ≤ s.high_med_prio_tasks ∧ s.high_med_prio_tasks % 4 = 0 ∧
        s.forced_low_pri = false) := by
      intro hc
      exact h2 ⟨h1, hc⟩
    obtain ⟨hdec, -⟩ := branch_work_dec_else date s h1 h2'
    rw [stateWork_iter]
    omega
  · intro endT date s hh hm hl
    have hdec := branch_work_dec_low date s hh hm hl
    rw [stateWork_iter]
    omega
  · intro endT date s hc
    obtain ⟨h1, h2⟩ := hc
    have hfl : (schedIter endT date s).forced_low_pri = true := by
      unfold schedIter
      rw [restPhase_fl]
      show (branchPhase date s).forced_low_pri = true
      rw [branchPhase_forced date s h1 h2]
    intro hc'
    obtain ⟨-, -, -, hfl'⟩ := hc'
    rw [hfl] at hfl'
    cases hfl'
  · intro endT date s hh hm hl _hf
    unfold schedIter
    apply restPhase_full_mono
    show (tickPhase (branchPhase date s)).time_block_full = true
    rw [branchPhase_terminal date s hh hm hl]
    rfl

/-- Witness for C10: each hypothesised conjunct applied at a concrete
state — the concrete run terminates, work decreases on a Medium
allocation and on a Low-only allocation, the forced injection cannot
repeat, and an all-empty state terminates. -/
theorem scheduler_terminates_witness :
    (runSched c1Tasks c1Window).time_block_full = true ∧
    stateWork (schedIter 1439 0 c10StateA) < stateWork c10StateA ∧
    stateWork (schedIter 1439 0 c10StateB) < stateWork c10StateB ∧
    ¬ forcedCond (schedIter 1439 0 c10StateC) ∧
    (schedIter 1439 0 c10StateD).time_block_full = true :=
  ⟨scheduler_terminates.1 c1Tasks c1Window,
   scheduler_terminates.2.1 1439 0 c10StateA (by decide)
     (by unfold forcedCond; decide),
   scheduler_terminates.2.2.1 1439 0 c10StateB (by decide) (by decide) (by decide),
   scheduler_terminates.2.2.2.1 1439 0 c10StateC (by unfold forcedCond; decide),
   scheduler_terminates.2.2.2.2 1439 0 c10StateD (by decide) (by decide)
     (by decide) (by decide)⟩

/-- C1 (amended): on the one-High-task 50-minute scenario in a 09:00
to 10:00 window, the output is the work block 09:00-09:25, a rest block
labelled five minutes recorded as 09:25-09:50 (the clock advancing only
to 09:30), the work block 09:30-09:55, and a final rest block labelled
five minutes recorded as 09:55-10:20 — four blocks, with a rest block
after the second work block. -/
theorem scenario_high50 :
    populate_time_block c1Tasks c1Window = c1Actual := by
  decide

/-- Counterexample to C1 as stated: the output is not the claimed
three-block sequence — it has four blocks, so a block does follow the
second work block, and the rest block is not recorded as 09:25-09:30. -/
theorem scenario_high50_not_claimed :
    populate_time_block c1Tasks c1Window ≠ c1Claimed ∧
    (populate_time_block c1Tasks c1Window).length = 4 := by
  constructor <;> decide

end Preempt
